import Mathlib

/-!
Shallow embedding of pathfinder's verification core:

* `crates/gateway-types/src/transaction_hash.rs` — transaction-hash
  computation and the two verification entry points, including the legacy
  fallback formulas;
* `crates/pathfinder/src/sync/state_updates.rs` — the state-diff commitment
  stage, the state-commitment update stage, and the batched commitment
  stream.

External collaborators (the pedersen pairing of the stark_hash crate, the
state-diff commitment formula, the Merkle-trie update and the relational
store) are passed in as explicit parameters or modelled from the spec, as
noted on each definition.
-/

/-- A STARK field element. The hashing code itself never reduces values (the
pedersen primitive does), so the embedding carries plain naturals. -/
abbrev Felt := Nat

/-- The STARK field modulus 2^251 + 17 * 2^192 + 1, the bound Felt::from_be_slice
enforces (written out as a literal). -/
def FIELD_MODULUS : Nat :=
  3618502788666131213697322783095070105623107215331596699973092056135872020481

/-- Modelled from the spec: the pedersen pairwise hash used by the HashChain
accumulator lives in the stark_hash crate, outside the sampled sources; every
hash computation takes it as an explicit parameter. -/
abbrev Pedersen := Felt → Felt → Felt

/-- Modelled from the spec: stark_hash's `HashChain`, the ordered incremental
accumulator over field elements; update folds the pedersen pairing, finalize
mixes in the element count. -/
structure HashChain where
  hash : Felt := 0
  count : Nat := 0
deriving DecidableEq

def HashChain.update (p : Pedersen) (h : HashChain) (v : Felt) : HashChain :=
  { hash := p h.hash v, count := h.count + 1 }

def HashChain.finalize (p : Pedersen) (h : HashChain) : Felt :=
  p h.hash h.count

/-- Big-endian integer value of a byte slice. -/
def beValue (bs : List Nat) : Nat := bs.foldl (fun acc b => acc * 256 + b) 0

/-- Felt::from_be_slice: fails on slices longer than 32 bytes and on values
not below the field modulus. -/
def fromBeSlice (bs : List Nat) : Option Felt :=
  if bs.length > 32 then none
  else if beValue bs < FIELD_MODULUS then some (beValue bs) else none

/-- The bytes of an ASCII literal, as Rust's b"..." byte strings. -/
def asciiBytes (s : String) : List Nat := s.toList.map Char.toNat

/-- TransactionVersion wraps a 32-byte big-endian word (an H256); the hashing
code reads it through Felt::from_be_slice of those bytes. -/
abbrev TransactionVersion := List Nat

def TransactionVersion.ZERO : TransactionVersion := List.replicate 32 0

def TransactionVersion.ONE : TransactionVersion := List.replicate 31 0 ++ [1]

def TransactionVersion.TWO : TransactionVersion := List.replicate 31 0 ++ [2]

/-- ChainId::TESTNET of pathfinder_common: the big-endian felt of "SN_GOERLI". -/
def ChainId.TESTNET : Felt := beValue (asciiBytes "SN_GOERLI")

/-- ChainId::TESTNET2: the big-endian felt of "SN_GOERLI2". -/
def ChainId.TESTNET2 : Felt := beValue (asciiBytes "SN_GOERLI2")

/-- ChainId::MAINNET: the big-endian felt of "SN_MAIN". -/
def ChainId.MAINNET : Felt := beValue (asciiBytes "SN_MAIN")

inductive EntryPointType
  | External
  | L1Handler
deriving DecidableEq

structure DeclareTransactionV0V1 where
  class_hash : Felt
  max_fee : Felt
  nonce : Felt
  sender_address : Felt
  transaction_hash : Felt
deriving DecidableEq

structure DeclareTransactionV2 where
  class_hash : Felt
  max_fee : Felt
  nonce : Felt
  sender_address : Felt
  transaction_hash : Felt
  compiled_class_hash : Felt
deriving DecidableEq

structure DeployTransaction where
  contract_address : Felt
  constructor_calldata : List Felt
  transaction_hash : Felt
  version : TransactionVersion
deriving DecidableEq

structure DeployAccountTransaction where
  contract_address : Felt
  contract_address_salt : Felt
  class_hash : Felt
  constructor_calldata : List Felt
  max_fee : Felt
  nonce : Felt
  transaction_hash : Felt
  version : TransactionVersion
deriving DecidableEq

structure InvokeTransactionV0 where
  calldata : List Felt
  sender_address : Felt
  entry_point_selector : Felt
  entry_point_type : Option EntryPointType
  max_fee : Felt
  transaction_hash : Felt
deriving DecidableEq

structure InvokeTransactionV1 where
  calldata : List Felt
  sender_address : Felt
  max_fee : Felt
  nonce : Felt
  transaction_hash : Felt
deriving DecidableEq

structure L1HandlerTransaction where
  contract_address : Felt
  entry_point_selector : Felt
  nonce : Felt
  calldata : List Felt
  transaction_hash : Felt
  version : TransactionVersion
deriving DecidableEq

inductive DeclareTransaction
  | V0 (txn : DeclareTransactionV0V1)
  | V1 (txn : DeclareTransactionV0V1)
  | V2 (txn : DeclareTransactionV2)
deriving DecidableEq

inductive InvokeTransaction
  | V0 (txn : InvokeTransactionV0)
  | V1 (txn : InvokeTransactionV1)
deriving DecidableEq

inductive Transaction
  | Declare (txn : DeclareTransaction)
  | Deploy (txn : DeployTransaction)
  | DeployAccount (txn : DeployAccountTransaction)
  | Invoke (txn : InvokeTransaction)
  | L1Handler (txn : L1HandlerTransaction)
deriving DecidableEq

/-- Transaction::hash(): the claimed hash each variant carries. -/
def Transaction.hash : Transaction → Felt
  | .Declare (.V0 t) => t.transaction_hash
  | .Declare (.V1 t) => t.transaction_hash
  | .Declare (.V2 t) => t.transaction_hash
  | .Deploy t => t.transaction_hash
  | .DeployAccount t => t.transaction_hash
  | .Invoke (.V0 t) => t.transaction_hash
  | .Invoke (.V1 t) => t.transaction_hash
  | .L1Handler t => t.transaction_hash

inductive ComputedTransactionHash
  | DeclareV0 (h : Felt)
  | DeclareV1 (h : Felt)
  | DeclareV2 (h : Felt)
  | Deploy (h : Felt)
  | DeployAccount (h : Felt)
  | InvokeV0 (h : Option Felt)
  | InvokeV1 (h : Felt)
  | L1Handler (h : Felt)
deriving DecidableEq

/-- ComputedTransactionHash::hash(): every variant carries a definite hash
except InvokeV0, which may carry none. -/
def ComputedTransactionHash.hash : ComputedTransactionHash → Option Felt
  | .InvokeV0 h => h
  | .DeclareV0 h => some h
  | .DeclareV1 h => some h
  | .DeclareV2 h => some h
  | .Deploy h => some h
  | .DeployAccount h => some h
  | .InvokeV1 h => some h
  | .L1Handler h => some h

inductive NonceOrClassHash
  | Nonce (n : Felt)
  | ClassHash (c : Felt)
  | None
deriving DecidableEq

/-- The pedersen hash of a felt list through a fresh HashChain, the h(list)
building block each computation folds by hand. -/
def hashFelts (p : Pedersen) (l : List Felt) : Felt :=
  HashChain.finalize p (l.foldl (HashChain.update p) {})

/-- The CONSTRUCTOR entry point: sn_keccak of the literal b"constructor",
precomputed since the keccak primitive (class_hash::truncated_keccak over
sha3) lies outside the sampled sources. -/
def CONSTRUCTOR : Felt :=
  0x028ffe4ff0f226a9107253e17a904099aa4f63a02a5621de0576e5aa71bc5194

/-- legacy_compute_txn_hash: the pre-0.8 generic formula, an accumulator over
prefix, address, selector (zero when absent), calldata hash and chain id
only. -/
def legacy_compute_txn_hash (p : Pedersen) (pfx : List Nat) (address : Felt)
    (entry_point_selector : Option Felt) (list_hash : Felt) (chain_id : Felt) :
    Except String Felt :=
  match fromBeSlice pfx with
  | none => .error "Converting prefix into felt"
  | some pf =>
    let h : HashChain := {}
    let h := HashChain.update p h pf
    let h := HashChain.update p h address
    let h := HashChain.update p h (entry_point_selector.getD 0)
    let h := HashChain.update p h list_hash
    let h := HashChain.update p h chain_id
    .ok (HashChain.finalize p h)

/-- compute_txn_hash: the generic current formula over prefix, version,
address, selector (zero when absent), calldata hash, fee (zero when absent),
chain id, an optional nonce or class hash, and an optional compiled class
hash. -/
def compute_txn_hash (p : Pedersen) (pfx : List Nat) (version : TransactionVersion)
    (address : Felt) (entry_point_selector : Option Felt) (list_hash : Felt)
    (max_fee : Option Felt) (chain_id : Felt) (nonce_or_class_hash : NonceOrClassHash)
    (compiled_class_hash : Option Felt) : Except String Felt :=
  match fromBeSlice pfx with
  | none => .error "Converting prefix into felt"
  | some pf =>
    match fromBeSlice version with
    | none => .error "Converting version into felt"
    | some vf =>
      let h : HashChain := {}
      let h := HashChain.update p h pf
      let h := HashChain.update p h vf
      let h := HashChain.update p h address
      let h := HashChain.update p h (entry_point_selector.getD 0)
      let h := HashChain.update p h list_hash
      let h := HashChain.update p h (max_fee.getD 0)
      let h := HashChain.update p h chain_id
      let h := match nonce_or_class_hash with
        | .Nonce n => HashChain.update p h n
        | .ClassHash c => HashChain.update p h c
        | .None => h
      let h := match compiled_class_hash with
        | some cch => HashChain.update p h cch
        | none => h
      .ok (HashChain.finalize p h)

/-- compute_declare_v0_hash: prefix "declare", version zero, sender, no
selector, hash of the empty list, no fee, chain id, class hash. -/
def compute_declare_v0_hash (p : Pedersen) (txn : DeclareTransactionV0V1)
    (chain_id : Felt) : Except String ComputedTransactionHash :=
  (compute_txn_hash p (asciiBytes "declare") TransactionVersion.ZERO
      txn.sender_address none (hashFelts p []) none chain_id
      (NonceOrClassHash.ClassHash txn.class_hash) none).map
    ComputedTransactionHash.DeclareV0

/-- compute_declare_v1_hash: prefix "declare", version one, sender, no
selector, hash of [class_hash], fee, chain id, nonce. -/
def compute_declare_v1_hash (p : Pedersen) (txn : DeclareTransactionV0V1)
    (chain_id : Felt) : Except String ComputedTransactionHash :=
  (compute_txn_hash p (asciiBytes "declare") TransactionVersion.ONE
      txn.sender_address none (hashFelts p [txn.class_hash]) (some txn.max_fee)
      chain_id (NonceOrClassHash.Nonce txn.nonce) none).map
    ComputedTransactionHash.DeclareV1

/-- compute_declare_v2_hash: as v1 with version two and the trailing compiled
class hash. -/
def compute_declare_v2_hash (p : Pedersen) (txn : DeclareTransactionV2)
    (chain_id : Felt) : Except String ComputedTransactionHash :=
  (compute_txn_hash p (asciiBytes "declare") TransactionVersion.TWO
      txn.sender_address none (hashFelts p [txn.class_hash]) (some txn.max_fee)
      chain_id (NonceOrClassHash.Nonce txn.nonce)
      (some txn.compiled_class_hash)).map
    ComputedTransactionHash.DeclareV2

/-- compute_deploy_hash: the current formula first; on disagreement with the
claimed hash, the legacy formula's result becomes the computed hash. -/
def compute_deploy_hash (p : Pedersen) (txn : DeployTransaction) (chain_id : Felt) :
    Except String ComputedTransactionHash :=
  let constructor_params_hash := hashFelts p txn.constructor_calldata
  match compute_txn_hash p (asciiBytes "deploy") txn.version txn.contract_address
      (some CONSTRUCTOR) constructor_params_hash none chain_id
      NonceOrClassHash.None none with
  | .error e => .error e
  | .ok h =>
    if h = txn.transaction_hash then .ok (ComputedTransactionHash.Deploy h)
    else
      match legacy_compute_txn_hash p (asciiBytes "deploy") txn.contract_address
          (some CONSTRUCTOR) constructor_params_hash chain_id with
      | .error e => .error e
      | .ok h => .ok (ComputedTransactionHash.Deploy h)

/-- compute_deploy_account_hash: prefix "deploy_account", version, contract
address, no selector, hash of class hash, salt and constructor calldata, fee,
chain id, nonce. -/
def compute_deploy_account_hash (p : Pedersen) (txn : DeployAccountTransaction)
    (chain_id : Felt) : Except String ComputedTransactionHash :=
  (compute_txn_hash p (asciiBytes "deploy_account") txn.version
      txn.contract_address none
      (hashFelts p (txn.class_hash :: txn.contract_address_salt ::
        txn.constructor_calldata))
      (some txn.max_fee) chain_id (NonceOrClassHash.Nonce txn.nonce) none).map
    ComputedTransactionHash.DeployAccount

/-- compute_invoke_v0_hash: old L1-handler-flagged transactions short-circuit
to the unverifiable marker; otherwise the current formula, falling back to the
legacy one on disagreement with the claimed hash. -/
def compute_invoke_v0_hash (p : Pedersen) (txn : InvokeTransactionV0)
    (chain_id : Felt) : Except String ComputedTransactionHash :=
  if txn.entry_point_type = some EntryPointType.L1Handler then
    .ok (ComputedTransactionHash.InvokeV0 none)
  else
    let call_params_hash := hashFelts p txn.calldata
    match compute_txn_hash p (asciiBytes "invoke") TransactionVersion.ZERO
        txn.sender_address (some txn.entry_point_selector) call_params_hash
        (some txn.max_fee) chain_id NonceOrClassHash.None none with
    | .error e => .error e
    | .ok h =>
      if h = txn.transaction_hash then
        .ok (ComputedTransactionHash.InvokeV0 (some h))
      else
        match legacy_compute_txn_hash p (asciiBytes "invoke") txn.sender_address
            (some txn.entry_point_selector) call_params_hash chain_id with
        | .error e => .error e
        | .ok h => .ok (ComputedTransactionHash.InvokeV0 (some h))

/-- compute_invoke_v1_hash: prefix "invoke", version one, sender, no selector,
hash of calldata, fee, chain id, nonce. -/
def compute_invoke_v1_hash (p : Pedersen) (txn : InvokeTransactionV1)
    (chain_id : Felt) : Except String ComputedTransactionHash :=
  (compute_txn_hash p (asciiBytes "invoke") TransactionVersion.ONE
      txn.sender_address none (hashFelts p txn.calldata) (some txn.max_fee)
      chain_id (NonceOrClassHash.Nonce txn.nonce) none).map
    ComputedTransactionHash.InvokeV1

/-- compute_l1_handler_hash: the current formula with prefix "l1_handler"; on
disagreement with the claimed hash, the legacy formula with prefix "invoke"
(the oldest L1 handler transactions were Invokes). -/
def compute_l1_handler_hash (p : Pedersen) (txn : L1HandlerTransaction)
    (chain_id : Felt) : Except String ComputedTransactionHash :=
  let call_params_hash := hashFelts p txn.calldata
  match compute_txn_hash p (asciiBytes "l1_handler") txn.version
      txn.contract_address (some txn.entry_point_selector) call_params_hash
      none chain_id (NonceOrClassHash.Nonce txn.nonce) none with
  | .error e => .error e
  | .ok h =>
    if h = txn.transaction_hash then .ok (ComputedTransactionHash.L1Handler h)
    else
      match legacy_compute_txn_hash p (asciiBytes "invoke") txn.contract_address
          (some txn.entry_point_selector) call_params_hash chain_id with
      | .error e => .error e
      | .ok h => .ok (ComputedTransactionHash.L1Handler h)

/-- compute_transaction_hash: dispatch over the closed kind and version
enumeration. -/
def compute_transaction_hash (p : Pedersen) (txn : Transaction) (chain_id : Felt) :
    Except String ComputedTransactionHash :=
  match txn with
  | .Declare (.V0 t) => compute_declare_v0_hash p t chain_id
  | .Declare (.V1 t) => compute_declare_v1_hash p t chain_id
  | .Declare (.V2 t) => compute_declare_v2_hash p t chain_id
  | .Deploy t => compute_deploy_hash p t chain_id
  | .DeployAccount t => compute_deploy_account_hash p t chain_id
  | .Invoke (.V0 t) => compute_invoke_v0_hash p t chain_id
  | .Invoke (.V1 t) => compute_invoke_v1_hash p t chain_id
  | .L1Handler t => compute_l1_handler_hash p t chain_id

inductive VerifyError
  | Compute (e : String)
  | Mismatch (expected computed : Felt)
deriving DecidableEq

/-- The ChainIdentity resolver both entry points inline: earlier blocks on
testnet2 used the chain id of testnet. -/
def resolve_chain_id (chain_id : Felt) (block_number : Nat) : Felt :=
  if chain_id = ChainId.TESTNET2 ∧ block_number ≤ 21086 then ChainId.TESTNET
  else chain_id

/-- The body of `verify` after its chain-id remap: mismatch is the error,
equality verifies (false), an uncomputable hash skips (true). -/
def verify_body (p : Pedersen) (txn : Transaction) (chain_id : Felt) :
    Except VerifyError Bool :=
  match compute_transaction_hash p txn chain_id with
  | .error e => .error (VerifyError.Compute e)
  | .ok computed_hash =>
    match computed_hash.hash with
    | some computed =>
      if computed ≠ txn.hash then .error (VerifyError.Mismatch txn.hash computed)
      else .ok false
    | none => .ok true

/-- verify: remap the chain id for early testnet2 blocks, then compare the
computed hash against the claimed one. -/
def verify (p : Pedersen) (txn : Transaction) (chain_id : Felt)
    (block_number : Nat) : Except VerifyError Bool :=
  let chain_id :=
    if chain_id = ChainId.TESTNET2 ∧ block_number ≤ 21086 then ChainId.TESTNET
    else chain_id
  verify_body p txn chain_id

/-- The body of `verify2` after its chain-id remap: the equality branch is
inverted relative to `verify` (equality is the error). -/
def verify2_body (p : Pedersen) (txn : Transaction) (chain_id : Felt) :
    Except VerifyError Bool :=
  match compute_transaction_hash p txn chain_id with
  | .error e => .error (VerifyError.Compute e)
  | .ok computed_hash =>
    match computed_hash.hash with
    | some computed =>
      if computed = txn.hash then .error (VerifyError.Mismatch txn.hash computed)
      else .ok false
    | none => .ok true

/-- verify2: same chain-id remap and same hash computation as `verify`; the
transaction index is diagnostic context only. -/
def verify2 (p : Pedersen) (txn : Transaction) (chain_id : Felt)
    (block_number : Nat) (_txn_idx : Nat) : Except VerifyError Bool :=
  let chain_id :=
    if chain_id = ChainId.TESTNET2 ∧ block_number ≤ 21086 then ChainId.TESTNET
    else chain_id
  verify2_body p txn chain_id

/-- StarknetVersion: an opaque protocol-version tag, only passed through to
the commitment formula. -/
abbrev StarknetVersion := Nat

/-- StateUpdateData of pathfinder_common::state_update: contract storage
updates, system-contract updates, and newly declared Cairo and Sierra
classes. The inner update records live outside the sampled sources and are
kept as finite association lists of field elements. -/
structure StateUpdateData where
  contract_updates : List (Felt × List (Felt × Felt))
  system_contract_updates : List (Felt × List (Felt × Felt))
  declared_cairo_classes : List Felt
  declared_sierra_classes : List (Felt × Felt)
deriving DecidableEq

/-- UnverifiedStateUpdateData: a peer-delivered diff together with the
commitment it claims. -/
structure UnverifiedStateUpdateData where
  expected_commitment : Felt
  state_diff : StateUpdateData
deriving DecidableEq

/-- Modelled from the spec: the sync error enumeration (sync/error.rs is not
among the sampled sources); the two data-integrity variants the sampled code
raises, and a catch-all for anyhow context errors. -/
inductive SyncError2
  | StateDiffCommitmentMismatch
  | StateRootMismatch
  | Other (context : String)
deriving DecidableEq

/-- VerifyCommitment::map (the StateDiffCommitmentStage): recompute the
commitment under the given version and reject on disagreement. The formula
compute_state_diff_commitment lives in pathfinder_common, outside the sampled
sources, and is passed in as `csdc`. -/
def VerifyCommitment.map (csdc : StateUpdateData → StarknetVersion → Felt)
    (input : UnverifiedStateUpdateData × StarknetVersion) :
    Except SyncError2 StateUpdateData :=
  let expected_commitment := input.1.expected_commitment
  let state_diff := input.1.state_diff
  let version := input.2
  let actual := csdc state_diff version
  if actual ≠ expected_commitment then
    .error SyncError2.StateDiffCommitmentMismatch
  else .ok state_diff

/-- BlockHeader: the fields the update stage reads. -/
structure BlockHeader where
  hash : Felt
  number : Nat
  state_commitment : Felt
deriving DecidableEq

/-- The full StateUpdate record the stage assembles and persists. -/
structure StateUpdate where
  block_hash : Felt
  parent_state_commitment : Felt
  state_commitment : Felt
  contract_updates : List (Felt × List (Felt × Felt))
  system_contract_updates : List (Felt × List (Felt × Felt))
  declared_cairo_classes : List Felt
  declared_sierra_classes : List (Felt × Felt)
deriving DecidableEq

/-- Modelled from the spec: the transactional key/commitment store (the
relational store is an external collaborator), as association lists keyed by
block number. A database transaction is a value of this type; dropping it
without commit discards its writes. -/
structure Db where
  headers : List (Nat × BlockHeader)
  state_commitments : List (Nat × Felt)
  storage_class_commitments : List (Nat × (Felt × Felt))
  state_updates : List (Nat × StateUpdate)
deriving DecidableEq

def Db.block_header (db : Db) (number : Nat) : Option BlockHeader :=
  List.lookup number db.headers

def Db.state_commitment (db : Db) (number : Nat) : Option Felt :=
  List.lookup number db.state_commitments

def Db.update_storage_and_class_commitments (db : Db) (number : Nat)
    (storage_commitment class_commitment : Felt) : Db :=
  { db with storage_class_commitments :=
      (number, (storage_commitment, class_commitment)) ::
        db.storage_class_commitments }

def Db.insert_state_update (db : Db) (number : Nat) (su : StateUpdate) : Db :=
  { db with state_updates := (number, su) :: db.state_updates }

/-- UpdateStarknetState (the StateCommitmentUpdateStage): its owned state. The
`db` field stands for the store behind its connection. -/
structure UpdateStarknetState where
  db : Db
  current_block : Nat
  verify_tree_hashes : Bool
deriving DecidableEq

/-- crate::state::update_starknet_state (external collaborator): applies the
contract and class updates to the Merkle tries inside the open transaction and
returns the new storage and class trie roots, or fails. Passed in as a
parameter; its Db result is the transaction with its trie writes. -/
abbrev UpdateStateFn := Db → StateUpdate → Bool → Nat → Option ((Felt × Felt) × Db)

/-- StateCommitment::calculate (external collaborator): combines the storage
and class trie roots into the state commitment. -/
abbrev CalculateFn := Felt → Felt → Felt

/-- The parent block's prior state commitment: the zero default at genesis,
otherwise a fatal lookup. -/
def parent_state_commitment_of (db : Db) (current_block : Nat) :
    Except SyncError2 Felt :=
  match current_block with
  | 0 => .ok 0
  | Nat.succ parent =>
    match db.state_commitment parent with
    | none => .error (SyncError2.Other "Parent block header not found")
    | some c => .ok c

/-- The StateUpdate record assembled from the header, the parent commitment
and the diff. -/
def assemble_state_update (header : BlockHeader) (parent_state_commitment : Felt)
    (su : StateUpdateData) : StateUpdate :=
  { block_hash := header.hash
    parent_state_commitment := parent_state_commitment
    state_commitment := header.state_commitment
    contract_updates := su.contract_updates
    system_contract_updates := su.system_contract_updates
    declared_cairo_classes := su.declared_cairo_classes
    declared_sierra_classes := su.declared_sierra_classes }

/-- UpdateStarknetState::map: open a transaction on the store, fetch the
header at the cursor, determine the parent commitment, apply the diff to the
tries, compare the recomputed state commitment to the header's, and only on
success persist, commit and advance the cursor. Every error path returns the
stage unchanged (the open transaction is dropped). -/
def UpdateStarknetState.map (usf : UpdateStateFn) (calculate : CalculateFn)
    (self : UpdateStarknetState) (state_update : StateUpdateData) :
    Except SyncError2 Nat × UpdateStarknetState :=
  let tx := self.db
  let tail := self.current_block
  match tx.block_header tail with
  | none => (.error (SyncError2.Other "Block header not found"), self)
  | some header =>
    match parent_state_commitment_of tx tail with
    | .error e => (.error e, self)
    | .ok parent_state_commitment =>
      let state_update := assemble_state_update header parent_state_commitment
        state_update
      match usf tx state_update self.verify_tree_hashes header.number with
      | none => (.error (SyncError2.Other "Updating Starknet state"), self)
      | some ((storage_commitment, class_commitment), tx1) =>
        let state_commitment := calculate storage_commitment class_commitment
        if state_commitment ≠ header.state_commitment then
          (.error SyncError2.StateRootMismatch, self)
        else
          let tx2 := tx1.update_storage_and_class_commitments tail
            storage_commitment class_commitment
          let tx3 := tx2.insert_state_update tail state_update
          (.ok tail, { self with db := tx3, current_block := self.current_block + 1 })

/-- length_and_commitment_stream, its async generator flattened to the list of
yielded items plus the (start, batch_size) of the failing empty batch fetch,
if any. The loop pulls a batch of at most 1000 rows whenever its buffer is
empty and blocks remain, fails on an empty batch, and drains the buffer. -/
def length_and_commitment_stream (fetch : Nat → Nat → List (Nat × Felt))
    (start stop : Nat) : List (Nat × Felt) × Option (Nat × Nat) :=
  if h : start ≤ stop then
    let batch_size := min 1000 (stop - start + 1)
    let batch := fetch start batch_size
    if hb : batch = [] then ([], some (start, batch_size))
    else
      let next := length_and_commitment_stream fetch (start + batch.length) stop
      (batch ++ next.1, next.2)
  else ([], none)
termination_by stop + 1 - start
decreasing_by
  have hlen : (fetch start (min 1000 (stop - start + 1))).length ≠ 0 :=
    fun h0 => hb (List.length_eq_zero.mp h0)
  omega

/-- A store holding a row for every block: the batch query returns exactly the
requested consecutive rows. -/
def complete_fetch (vals : Nat → Nat × Felt) : Nat → Nat → List (Nat × Felt) :=
  fun start batch_size => (List.range batch_size).map fun i => vals (start + i)

/-- A store holding rows only for blocks below `gap`: the batch query returns
the consecutive rows up to the gap and nothing at or past it. -/
def gap_fetch (vals : Nat → Nat × Felt) (gap : Nat) : Nat → Nat → List (Nat × Felt) :=
  fun start batch_size =>
    (List.range (min batch_size (gap - start))).map fun i => vals (start + i)

/-- Whether the transaction is an Invoke V0 flagged with the L1Handler entry
point type, the one kind whose hash cannot be computed. -/
def invoke_v0_l1_flagged : Transaction → Prop
  | .Invoke (.V0 t) => t.entry_point_type = some EntryPointType.L1Handler
  | _ => False

/-- The version word each kind feeds to compute_txn_hash: a fixed constant for
Declare and Invoke, the transaction's own version for the others. -/
def txn_version_bytes : Transaction → TransactionVersion
  | .Declare (.V0 _) => TransactionVersion.ZERO
  | .Declare (.V1 _) => TransactionVersion.ONE
  | .Declare (.V2 _) => TransactionVersion.TWO
  | .Deploy t => t.version
  | .DeployAccount t => t.version
  | .Invoke (.V0 _) => TransactionVersion.ZERO
  | .Invoke (.V1 _) => TransactionVersion.ONE
  | .L1Handler t => t.version

/-- A concrete stand-in pairing used only to evaluate the model on explicit
inputs. -/
def pedersen0 : Pedersen := fun a b => a * 2 + b * 3 + 1

/-- The payload of a successful hash computation, zero on error; used to name
concrete computed hashes in closed statements. -/
def exOk (e : Except String Felt) : Felt :=
  match e with
  | .ok v => v
  | .error _ => 0

deriving instance DecidableEq for Except

/-- A concrete flagged Invoke V0 transaction, for closed instances. -/
def tx_invoke_flagged : Transaction := Transaction.Invoke (InvokeTransaction.V0
  { calldata := [], sender_address := 1, entry_point_selector := 2,
    entry_point_type := some EntryPointType.L1Handler, max_fee := 0,
    transaction_hash := 5 })

/-- The hash the current formula computes for the concrete Declare V0 below. -/
def declare0_hash : Felt := exOk (compute_txn_hash pedersen0 (asciiBytes "declare")
  TransactionVersion.ZERO 2 none (hashFelts pedersen0 []) none ChainId.MAINNET
  (NonceOrClassHash.ClassHash 1) none)

/-- A concrete Declare V0 whose claimed hash equals its computed hash. -/
def tx_declare_good : Transaction := Transaction.Declare (DeclareTransaction.V0
  { class_hash := 1, max_fee := 0, nonce := 0, sender_address := 2,
    transaction_hash := declare0_hash })

/-- A concrete Deploy whose claimed hash disagrees with the current formula,
so the legacy fallback activates. -/
def deploy_fb : DeployTransaction :=
  { contract_address := 0, constructor_calldata := [], transaction_hash := 0,
    version := TransactionVersion.ZERO }

/-- The hash the current formula computes for deploy_fb at chain id 0. -/
def deploy_primary0 : Felt := exOk (compute_txn_hash pedersen0 (asciiBytes "deploy")
  TransactionVersion.ZERO 0 (some CONSTRUCTOR) (hashFelts pedersen0 []) none 0
  NonceOrClassHash.None none)

/-- A Deploy whose 32-byte version word does not fit the field, though every
byte prefix in use embeds fine. -/
def bad_version_deploy : DeployTransaction :=
  { contract_address := 1, constructor_calldata := [], transaction_hash := 0,
    version := List.replicate 32 255 }

/-- A constant stand-in state-diff commitment formula. -/
def csdc0 : StateUpdateData → StarknetVersion → Felt := fun _ _ => 7

/-- The empty concrete state diff. -/
def diff0 : StateUpdateData :=
  { contract_updates := [], system_contract_updates := [],
    declared_cairo_classes := [], declared_sierra_classes := [] }

/-- A trie-update stand-in returning fixed roots and writing nothing. -/
def usf0 : UpdateStateFn := fun tx _ _ _ => some ((1, 1), tx)

/-- A commitment-combination stand-in. -/
def calc0 : CalculateFn := fun a b => a + b

/-- A genesis header whose declared commitment the stand-ins cannot reproduce. -/
def header_mismatch : BlockHeader := { hash := 5, number := 0, state_commitment := 99 }

def db_mismatch : Db :=
  { headers := [(0, header_mismatch)], state_commitments := [],
    storage_class_commitments := [], state_updates := [] }

def stage_mismatch : UpdateStarknetState :=
  { db := db_mismatch, current_block := 0, verify_tree_hashes := false }

/-- A genesis header whose declared commitment the stand-ins do reproduce. -/
def header_ok : BlockHeader := { hash := 5, number := 0, state_commitment := 2 }

def db_ok : Db :=
  { headers := [(0, header_ok)], state_commitments := [],
    storage_class_commitments := [], state_updates := [] }

def stage_ok : UpdateStarknetState :=
  { db := db_ok, current_block := 0, verify_tree_hashes := false }

/-- The stage state after the successful genesis run of stage_ok. -/
def stage_ok_next : UpdateStarknetState :=
  { db := (db_ok.update_storage_and_class_commitments 0 1 1).insert_state_update 0
      (assemble_state_update header_ok 0 diff0),
    current_block := 1, verify_tree_hashes := false }

/-- A concrete per-block store row assignment for the stream instances. -/
def vals0 : Nat → Nat × Felt := fun b => (b, 2 * b + 1)

theorem except_map_ok_shape {α : Type} (f : α → ComputedTransactionHash)
    (e : Except String α) (ch : ComputedTransactionHash)
    (hmap : e.map f = .ok ch) : ∃ h, ch = f h := by
  cases e with
  | error e0 => simp [Except.map] at hmap
  | ok a => simp [Except.map] at hmap; exact ⟨a, hmap.symm⟩

theorem compute_deploy_hash_shape (p : Pedersen) (t : DeployTransaction)
    (cid : Felt) (ch : ComputedTransactionHash)
    (hok : compute_deploy_hash p t cid = .ok ch) :
    ∃ h, ch = ComputedTransactionHash.Deploy h := by
  simp only [compute_deploy_hash] at hok
  split at hok
  · exact absurd hok (by simp)
  · split at hok
    · simp at hok; exact ⟨_, hok.symm⟩
    · split at hok
      · exact absurd hok (by simp)
      · simp at hok; exact ⟨_, hok.symm⟩

theorem compute_l1_handler_hash_shape (p : Pedersen) (t : L1HandlerTransaction)
    (cid : Felt) (ch : ComputedTransactionHash)
    (hok : compute_l1_handler_hash p t cid = .ok ch) :
    ∃ h, ch = ComputedTransactionHash.L1Handler h := by
  simp only [compute_l1_handler_hash] at hok
  split at hok
  · exact absurd hok (by simp)
  · split at hok
    · simp at hok; exact ⟨_, hok.symm⟩
    · split at hok
      · exact absurd hok (by simp)
      · simp at hok; exact ⟨_, hok.symm⟩

theorem compute_invoke_v0_hash_shape (p : Pedersen) (t : InvokeTransactionV0)
    (cid : Felt) (ch : ComputedTransactionHash)
    (hok : compute_invoke_v0_hash p t cid = .ok ch) :
    (t.entry_point_type = some EntryPointType.L1Handler ∧
      ch = ComputedTransactionHash.InvokeV0 none) ∨
    (t.entry_point_type ≠ some EntryPointType.L1Handler ∧
      ∃ h, ch = ComputedTransactionHash.InvokeV0 (some h)) := by
  simp only [compute_invoke_v0_hash] at hok
  split at hok
  · rename_i hf
    left
    simp at hok
    exact ⟨hf, hok.symm⟩
  · rename_i hf
    right
    refine ⟨hf, ?_⟩
    split at hok
    · exact absurd hok (by simp)
    · split at hok
      · simp at hok; exact ⟨_, hok.symm⟩
      · split at hok
        · exact absurd hok (by simp)
        · simp at hok; exact ⟨_, hok.symm⟩

theorem compute_hash_none_iff (p : Pedersen) (txn : Transaction) (cid : Felt)
    (ch : ComputedTransactionHash)
    (hok : compute_transaction_hash p txn cid = .ok ch) :
    (ch.hash = none ↔ invoke_v0_l1_flagged txn) := by
  cases txn with
  | Declare d =>
    cases d with
    | V0 t =>
      simp only [compute_transaction_hash, compute_declare_v0_hash] at hok
      obtain ⟨h, rfl⟩ := except_map_ok_shape _ _ _ hok
      simp [ComputedTransactionHash.hash, invoke_v0_l1_flagged]
    | V1 t =>
      simp only [compute_transaction_hash, compute_declare_v1_hash] at hok
      obtain ⟨h, rfl⟩ := except_map_ok_shape _ _ _ hok
      simp [ComputedTransactionHash.hash, invoke_v0_l1_flagged]
    | V2 t =>
      simp only [compute_transaction_hash, compute_declare_v2_hash] at hok
      obtain ⟨h, rfl⟩ := except_map_ok_shape _ _ _ hok
      simp [ComputedTransactionHash.hash, invoke_v0_l1_flagged]
  | Deploy t =>
    simp only [compute_transaction_hash] at hok
    obtain ⟨h, rfl⟩ := compute_deploy_hash_shape _ _ _ _ hok
    simp [ComputedTransactionHash.hash, invoke_v0_l1_flagged]
  | DeployAccount t =>
    simp only [compute_transaction_hash, compute_deploy_account_hash] at hok
    obtain ⟨h, rfl⟩ := except_map_ok_shape _ _ _ hok
    simp [ComputedTransactionHash.hash, invoke_v0_l1_flagged]
  | Invoke iv =>
    cases iv with
    | V0 t =>
      simp only [compute_transaction_hash] at hok
      rcases compute_invoke_v0_hash_shape _ _ _ _ hok with ⟨hf, rfl⟩ | ⟨hf, h, rfl⟩
      · simp [ComputedTransactionHash.hash, invoke_v0_l1_flagged, hf]
      · simp [ComputedTransactionHash.hash, invoke_v0_l1_flagged, hf]
    | V1 t =>
      simp only [compute_transaction_hash, compute_invoke_v1_hash] at hok
      obtain ⟨h, rfl⟩ := except_map_ok_shape _ _ _ hok
      simp [ComputedTransactionHash.hash, invoke_v0_l1_flagged]
  | L1Handler t =>
    simp only [compute_transaction_hash] at hok
    obtain ⟨h, rfl⟩ := compute_l1_handler_hash_shape _ _ _ _ hok
    simp [ComputedTransactionHash.hash, invoke_v0_l1_flagged]

theorem compute_flagged_eq (p : Pedersen) (t : InvokeTransactionV0) (cid : Felt)
    (hf : t.entry_point_type = some EntryPointType.L1Handler) :
    compute_transaction_hash p (Transaction.Invoke (InvokeTransaction.V0 t)) cid
      = .ok (ComputedTransactionHash.InvokeV0 none) := by
  simp [compute_transaction_hash, compute_invoke_v0_hash, hf]

/-- C6: chain-id resolution, as both verify entry points apply it, maps
testnet2 to testnet for block numbers up to 21086 and returns the declared
chain id unchanged from block 21087 on and for every other chain id; the two
identifiers are distinct. -/
theorem chain_id_resolution_spec (cid : Felt) (bn : Nat) (p : Pedersen)
    (txn : Transaction) (idx : Nat) :
    (cid = ChainId.TESTNET2 → bn ≤ 21086 →
      resolve_chain_id cid bn = ChainId.TESTNET) ∧
    (21087 ≤ bn → resolve_chain_id cid bn = cid) ∧
    (cid ≠ ChainId.TESTNET2 → resolve_chain_id cid bn = cid) ∧
    ChainId.TESTNET ≠ ChainId.TESTNET2 ∧
    verify p txn cid bn = verify_body p txn (resolve_chain_id cid bn) ∧
    verify2 p txn cid bn idx = verify2_body p txn (resolve_chain_id cid bn) := by
  refine ⟨?_, ?_, ?_, by decide, rfl, rfl⟩
  · intro h1 h2
    unfold resolve_chain_id
    rw [if_pos ⟨h1, h2⟩]
  · intro h
    unfold resolve_chain_id
    rw [if_neg]
    rintro ⟨-, h2⟩
    omega
  · intro h
    unfold resolve_chain_id
    rw [if_neg]
    rintro ⟨h1, -⟩
    exact h h1

/-- C6 witness: the boundary at blocks 21086 and 21087 on concrete inputs. -/
theorem chain_id_resolution_spec_witness :
    resolve_chain_id ChainId.TESTNET2 21086 = ChainId.TESTNET ∧
    resolve_chain_id ChainId.TESTNET2 21087 = ChainId.TESTNET2 ∧
    resolve_chain_id ChainId.MAINNET 21086 = ChainId.MAINNET ∧
    ChainId.TESTNET ≠ ChainId.TESTNET2 := by
  obtain ⟨h1, -, -, h4, -, -⟩ :=
    chain_id_resolution_spec ChainId.TESTNET2 21086 pedersen0
      (Transaction.Deploy ⟨0, [], 0, TransactionVersion.ZERO⟩) 0
  obtain ⟨-, h2, -, -, -, -⟩ :=
    chain_id_resolution_spec ChainId.TESTNET2 21087 pedersen0
      (Transaction.Deploy ⟨0, [], 0, TransactionVersion.ZERO⟩) 0
  obtain ⟨-, -, h3, -, -, -⟩ :=
    chain_id_resolution_spec ChainId.MAINNET 21086 pedersen0
      (Transaction.Deploy ⟨0, [], 0, TransactionVersion.ZERO⟩) 0
  exact ⟨h1 rfl (by decide), h2 (by decide), h3 (by decide), h4⟩

/-- C2: verify and verify2 resolve the same effective chain id and compute the
same transaction hash; they differ only in the inverted equality branch:
verify fails exactly when the computed hash differs from the claimed hash,
verify2 fails exactly when it equals it, and both propagate a computation
error and skip identically. -/
theorem verify2_inverts_equality (p : Pedersen) (txn : Transaction) (cid : Felt)
    (bn idx : Nat) (ch : ComputedTransactionHash) (c : Felt) (e : String) :
    verify p txn cid bn = verify_body p txn (resolve_chain_id cid bn) ∧
    verify2 p txn cid bn idx = verify2_body p txn (resolve_chain_id cid bn) ∧
    (compute_transaction_hash p txn (resolve_chain_id cid bn) = .error e →
      verify p txn cid bn = .error (VerifyError.Compute e) ∧
      verify2 p txn cid bn idx = .error (VerifyError.Compute e)) ∧
    (compute_transaction_hash p txn (resolve_chain_id cid bn) = .ok ch →
      (ch.hash = none →
        verify p txn cid bn = .ok true ∧ verify2 p txn cid bn idx = .ok true) ∧
      (ch.hash = some c →
        (c ≠ txn.hash →
          verify p txn cid bn = .error (VerifyError.Mismatch txn.hash c) ∧
          verify2 p txn cid bn idx = .ok false) ∧
        (c = txn.hash →
          verify p txn cid bn = .ok false ∧
          verify2 p txn cid bn idx = .error (VerifyError.Mismatch txn.hash c)))) := by
  have h1 : verify p txn cid bn = verify_body p txn (resolve_chain_id cid bn) := rfl
  have h2 : verify2 p txn cid bn idx = verify2_body p txn (resolve_chain_id cid bn) := rfl
  refine ⟨h1, h2, ?_, ?_⟩
  · intro hE
    rw [h1, h2]
    unfold verify_body verify2_body
    rw [hE]
    exact ⟨rfl, rfl⟩
  · intro hok
    constructor
    · intro hnone
      rw [h1, h2]
      unfold verify_body verify2_body
      rw [hok]
      simp only [hnone]
      exact ⟨trivial, trivial⟩
    · intro hsome
      constructor
      · intro hne
        rw [h1, h2]
        unfold verify_body verify2_body
        rw [hok]
        simp only [hsome]
        rw [if_pos hne, if_neg hne]
        exact ⟨rfl, rfl⟩
      · intro heq
        rw [h1, h2]
        unfold verify_body verify2_body
        rw [hok]
        simp only [hsome]
        rw [if_neg (by simp [heq]), if_pos heq]
        exact ⟨rfl, rfl⟩

/-- C2 witness: on a concrete Declare V0 whose computed hash equals its
claimed hash, verify succeeds with false while verify2 fails, and vice-versa
semantics hold at a perturbed claimed hash. -/
theorem verify2_inverts_equality_witness :
    verify pedersen0 tx_declare_good ChainId.MAINNET 5 = .ok false ∧
    verify2 pedersen0 tx_declare_good ChainId.MAINNET 5 0
      = .error (VerifyError.Mismatch tx_declare_good.hash declare0_hash) := by
  have H := verify2_inverts_equality pedersen0 tx_declare_good ChainId.MAINNET 5 0
    (ComputedTransactionHash.DeclareV0 declare0_hash) declare0_hash "x"
  exact (((H.2.2.2 (by decide)).2 (by decide)).2 (by decide))

/-- C10: when verify succeeds, true means exactly that no hash could be
computed (the skip case) and false means exactly that the computed hash equals
the claimed hash; true never reports a completed successful verification. -/
theorem verify_bool_semantics (p : Pedersen) (txn : Transaction) (cid : Felt)
    (bn : Nat) :
    (verify p txn cid bn = .ok true ↔
      ∃ ch, compute_transaction_hash p txn (resolve_chain_id cid bn) = .ok ch ∧
        ch.hash = none) ∧
    (verify p txn cid bn = .ok false ↔
      ∃ ch c, compute_transaction_hash p txn (resolve_chain_id cid bn) = .ok ch ∧
        ch.hash = some c ∧ c = txn.hash) := by
  have hv : verify p txn cid bn = verify_body p txn (resolve_chain_id cid bn) := rfl
  rw [hv]
  unfold verify_body
  cases E : compute_transaction_hash p txn (resolve_chain_id cid bn) with
  | error e => simp
  | ok ch0 =>
    cases hh : ch0.hash with
    | none => simp [hh]
    | some c0 =>
      by_cases hc : c0 = txn.hash
      · simp [hh, hc]
      · simp [hh, hc]

/-- C10 witness: the boolean outcomes on a concrete skip case and a concrete
verified case. -/
theorem verify_bool_semantics_witness :
    (verify pedersen0 tx_invoke_flagged ChainId.MAINNET 100 = .ok true ↔
      ∃ ch, compute_transaction_hash pedersen0 tx_invoke_flagged
          (resolve_chain_id ChainId.MAINNET 100) = .ok ch ∧ ch.hash = none) ∧
    (verify pedersen0 tx_declare_good ChainId.MAINNET 100 = .ok false ↔
      ∃ ch c, compute_transaction_hash pedersen0 tx_declare_good
          (resolve_chain_id ChainId.MAINNET 100) = .ok ch ∧ ch.hash = some c ∧
        c = tx_declare_good.hash) :=
  ⟨(verify_bool_semantics pedersen0 tx_invoke_flagged ChainId.MAINNET 100).1,
   (verify_bool_semantics pedersen0 tx_declare_good ChainId.MAINNET 100).2⟩

/-- C4: verify succeeds with the skip verdict exactly on an Invoke V0 flagged
with the L1Handler entry point type; for every other kind and version a
successful hash computation carries exactly one definite hash. -/
theorem verify_skip_iff (p : Pedersen) (txn : Transaction) (cid cid2 : Felt)
    (bn : Nat) (ch : ComputedTransactionHash) :
    (verify p txn cid bn = .ok true ↔ invoke_v0_l1_flagged txn) ∧
    (compute_transaction_hash p txn cid2 = .ok ch → ¬ invoke_v0_l1_flagged txn →
      ∃ h, ch.hash = some h) := by
  have hv : verify p txn cid bn = verify_body p txn (resolve_chain_id cid bn) := rfl
  constructor
  · constructor
    · intro htrue
      rw [hv] at htrue
      unfold verify_body at htrue
      cases E : compute_transaction_hash p txn (resolve_chain_id cid bn) with
      | error e => rw [E] at htrue; exact absurd htrue (by simp)
      | ok ch0 =>
        rw [E] at htrue
        cases hh : ch0.hash with
        | none => exact (compute_hash_none_iff p txn _ ch0 E).mp hh
        | some c0 =>
          simp only [hh] at htrue
          by_cases hc : c0 ≠ txn.hash
          · rw [if_pos hc] at htrue; exact absurd htrue (by simp)
          · rw [if_neg hc] at htrue; exact absurd htrue (by simp)
    · intro hf
      cases txn with
      | Invoke iv =>
        cases iv with
        | V0 t =>
          have ht : t.entry_point_type = some EntryPointType.L1Handler := hf
          rw [hv]
          unfold verify_body
          rw [compute_flagged_eq p t _ ht]
          simp [ComputedTransactionHash.hash]
        | V1 t => exact absurd hf (by simp [invoke_v0_l1_flagged])
      | Declare d => exact absurd hf (by cases d <;> simp [invoke_v0_l1_flagged])
      | Deploy t => exact absurd hf (by simp [invoke_v0_l1_flagged])
      | DeployAccount t => exact absurd hf (by simp [invoke_v0_l1_flagged])
      | L1Handler t => exact absurd hf (by simp [invoke_v0_l1_flagged])
  · intro hok hnf
    cases hh : ch.hash with
    | none => exact absurd ((compute_hash_none_iff p txn cid2 ch hok).mp hh) hnf
    | some h0 => exact ⟨h0, rfl⟩

/-- C4 witness: the skip verdict on a concrete flagged Invoke V0, and a
definite hash on a concrete Declare V0. -/
theorem verify_skip_iff_witness :
    (verify pedersen0 tx_invoke_flagged ChainId.MAINNET 100 = .ok true ↔
      invoke_v0_l1_flagged tx_invoke_flagged) ∧
    (verify pedersen0 tx_declare_good ChainId.MAINNET 100 = .ok true ↔
      invoke_v0_l1_flagged tx_declare_good) :=
  ⟨(verify_skip_iff pedersen0 tx_invoke_flagged ChainId.MAINNET 0 100
      (ComputedTransactionHash.InvokeV0 none)).1,
   (verify_skip_iff pedersen0 tx_declare_good ChainId.MAINNET 0 100
      (ComputedTransactionHash.InvokeV0 none)).1⟩

theorem legacy_ok_of_prefix (p : Pedersen) (pfx : List Nat) (address : Felt)
    (sel : Option Felt) (lh cidv pf : Felt)
    (hp : fromBeSlice pfx = some pf) :
    ∃ hleg, legacy_compute_txn_hash p pfx address sel lh cidv = .ok hleg := by
  unfold legacy_compute_txn_hash
  rw [hp]
  exact ⟨_, rfl⟩

/-- C1: for Deploy, non-flagged Invoke V0 and L1Handler, the primary formula
is evaluated first; when it reproduces the claimed hash that result is
returned, otherwise the legacy five-field formula (prefix "invoke" for
L1Handler) runs, never errors, and its result becomes the computed hash. -/
theorem legacy_fallback_spec (p : Pedersen) (cid : Felt)
    (dt : DeployTransaction) (it : InvokeTransactionV0)
    (lt : L1HandlerTransaction) (hd hi hl : Felt) :
    (compute_txn_hash p (asciiBytes "deploy") dt.version dt.contract_address
        (some CONSTRUCTOR) (hashFelts p dt.constructor_calldata) none cid
        NonceOrClassHash.None none = .ok hd →
      (hd = dt.transaction_hash →
        compute_deploy_hash p dt cid = .ok (ComputedTransactionHash.Deploy hd)) ∧
      (hd ≠ dt.transaction_hash → ∃ hleg,
        legacy_compute_txn_hash p (asciiBytes "deploy") dt.contract_address
          (some CONSTRUCTOR) (hashFelts p dt.constructor_calldata) cid = .ok hleg ∧
        compute_deploy_hash p dt cid = .ok (ComputedTransactionHash.Deploy hleg))) ∧
    (it.entry_point_type ≠ some EntryPointType.L1Handler →
      compute_txn_hash p (asciiBytes "invoke") TransactionVersion.ZERO
        it.sender_address (some it.entry_point_selector) (hashFelts p it.calldata)
        (some it.max_fee) cid NonceOrClassHash.None none = .ok hi →
      (hi = it.transaction_hash →
        compute_invoke_v0_hash p it cid
          = .ok (ComputedTransactionHash.InvokeV0 (some hi))) ∧
      (hi ≠ it.transaction_hash → ∃ hleg,
        legacy_compute_txn_hash p (asciiBytes "invoke") it.sender_address
          (some it.entry_point_selector) (hashFelts p it.calldata) cid = .ok hleg ∧
        compute_invoke_v0_hash p it cid
          = .ok (ComputedTransactionHash.InvokeV0 (some hleg)))) ∧
    (compute_txn_hash p (asciiBytes "l1_handler") lt.version lt.contract_address
        (some lt.entry_point_selector) (hashFelts p lt.calldata) none cid
        (NonceOrClassHash.Nonce lt.nonce) none = .ok hl →
      (hl = lt.transaction_hash →
        compute_l1_handler_hash p lt cid
          = .ok (ComputedTransactionHash.L1Handler hl)) ∧
      (hl ≠ lt.transaction_hash → ∃ hleg,
        legacy_compute_txn_hash p (asciiBytes "invoke") lt.contract_address
          (some lt.entry_point_selector) (hashFelts p lt.calldata) cid = .ok hleg ∧
        compute_l1_handler_hash p lt cid
          = .ok (ComputedTransactionHash.L1Handler hleg))) := by
  refine ⟨?_, ?_, ?_⟩
  · intro hpr
    constructor
    · intro heq
      simp only [compute_deploy_hash]
      rw [hpr]
      simp only [if_pos heq]
    · intro hne
      obtain ⟨hleg, L⟩ := legacy_ok_of_prefix p (asciiBytes "deploy")
        dt.contract_address (some CONSTRUCTOR) (hashFelts p dt.constructor_calldata)
        cid (beValue (asciiBytes "deploy")) (by decide)
      refine ⟨hleg, L, ?_⟩
      simp only [compute_deploy_hash]
      rw [hpr]
      simp only [if_neg hne]
      rw [L]
  · intro hflag hpr
    constructor
    · intro heq
      simp only [compute_invoke_v0_hash]
      rw [if_neg hflag]
      rw [hpr]
      simp only [if_pos heq]
    · intro hne
      obtain ⟨hleg, L⟩ := legacy_ok_of_prefix p (asciiBytes "invoke")
        it.sender_address (some it.entry_point_selector) (hashFelts p it.calldata)
        cid (beValue (asciiBytes "invoke")) (by decide)
      refine ⟨hleg, L, ?_⟩
      simp only [compute_invoke_v0_hash]
      rw [if_neg hflag]
      rw [hpr]
      simp only [if_neg hne]
      rw [L]
  · intro hpr
    constructor
    · intro heq
      simp only [compute_l1_handler_hash]
      rw [hpr]
      simp only [if_pos heq]
    · intro hne
      obtain ⟨hleg, L⟩ := legacy_ok_of_prefix p (asciiBytes "invoke")
        lt.contract_address (some lt.entry_point_selector) (hashFelts p lt.calldata)
        cid (beValue (asciiBytes "invoke")) (by decide)
      refine ⟨hleg, L, ?_⟩
      simp only [compute_l1_handler_hash]
      rw [hpr]
      simp only [if_neg hne]
      rw [L]

/-- C1 witness: on a concrete Deploy whose claimed hash only the legacy
formula can match, the fallback activates, does not error, and its result is
the computed hash. -/
theorem legacy_fallback_spec_witness :
    deploy_primary0 ≠ deploy_fb.transaction_hash ∧
    ∃ hleg,
      legacy_compute_txn_hash pedersen0 (asciiBytes "deploy")
        deploy_fb.contract_address (some CONSTRUCTOR)
        (hashFelts pedersen0 deploy_fb.constructor_calldata) 0 = .ok hleg ∧
      compute_deploy_hash pedersen0 deploy_fb 0
        = .ok (ComputedTransactionHash.Deploy hleg) := by
  have H := (legacy_fallback_spec pedersen0 0 deploy_fb
    ⟨[], 0, 0, none, 0, 0⟩ ⟨0, 0, 0, [], 0, TransactionVersion.ZERO⟩
    deploy_primary0 0 0).1
  exact ⟨by decide, (H (by decide)).2 (by decide)⟩

theorem compute_txn_hash_version_none (p : Pedersen) (pfx : List Nat)
    (version : TransactionVersion) (address : Felt) (sel : Option Felt)
    (lh : Felt) (fee : Option Felt) (cidv : Felt) (ncl : NonceOrClassHash)
    (cch : Option Felt) (pf : Felt)
    (hp : fromBeSlice pfx = some pf) (hv : fromBeSlice version = none) :
    compute_txn_hash p pfx version address sel lh fee cidv ncl cch
      = .error "Converting version into felt" := by
  unfold compute_txn_hash
  rw [hp, hv]

theorem compute_txn_hash_ok_of_some (p : Pedersen) (pfx : List Nat)
    (version : TransactionVersion) (address : Felt) (sel : Option Felt)
    (lh : Felt) (fee : Option Felt) (cidv : Felt) (ncl : NonceOrClassHash)
    (cch : Option Felt) (pf vf : Felt)
    (hp : fromBeSlice pfx = some pf) (hv : fromBeSlice version = some vf) :
    ∃ h, compute_txn_hash p pfx version address sel lh fee cidv ncl cch = .ok h := by
  unfold compute_txn_hash
  rw [hp, hv]
  exact ⟨_, rfl⟩

/-- C8 (amended): compute_transaction_hash returns a conversion error exactly
when the transaction's 32-byte version word cannot be embedded as a field
element, and that error is the version-conversion one; the byte-prefix
conversion never fails because all five fixed ASCII prefixes embed. -/
theorem compute_transaction_hash_conversion (p : Pedersen) (txn : Transaction)
    (cid : Felt) :
    ((fromBeSlice (txn_version_bytes txn)).isSome = true →
      ∃ ch, compute_transaction_hash p txn cid = .ok ch) ∧
    (fromBeSlice (txn_version_bytes txn) = none →
      compute_transaction_hash p txn cid
        = .error "Converting version into felt") ∧
    (fromBeSlice (asciiBytes "declare")).isSome = true ∧
    (fromBeSlice (asciiBytes "deploy")).isSome = true ∧
    (fromBeSlice (asciiBytes "deploy_account")).isSome = true ∧
    (fromBeSlice (asciiBytes "invoke")).isSome = true ∧
    (fromBeSlice (asciiBytes "l1_handler")).isSome = true := by
  refine ⟨?_, ?_, by decide, by decide, by decide, by decide, by decide⟩
  · intro hs
    rw [Option.isSome_iff_exists] at hs
    obtain ⟨vf, hv⟩ := hs
    cases txn with
    | Declare d =>
      cases d with
      | V0 t =>
        simp only [txn_version_bytes] at hv
        obtain ⟨h, hpr⟩ := compute_txn_hash_ok_of_some p (asciiBytes "declare")
          TransactionVersion.ZERO t.sender_address none (hashFelts p []) none cid
          (NonceOrClassHash.ClassHash t.class_hash) none
          (beValue (asciiBytes "declare")) vf (by decide) hv
        refine ⟨ComputedTransactionHash.DeclareV0 h, ?_⟩
        simp [compute_transaction_hash, compute_declare_v0_hash, hpr, Except.map]
      | V1 t =>
        simp only [txn_version_bytes] at hv
        obtain ⟨h, hpr⟩ := compute_txn_hash_ok_of_some p (asciiBytes "declare")
          TransactionVersion.ONE t.sender_address none (hashFelts p [t.class_hash])
          (some t.max_fee) cid (NonceOrClassHash.Nonce t.nonce) none
          (beValue (asciiBytes "declare")) vf (by decide) hv
        refine ⟨ComputedTransactionHash.DeclareV1 h, ?_⟩
        simp [compute_transaction_hash, compute_declare_v1_hash, hpr, Except.map]
      | V2 t =>
        simp only [txn_version_bytes] at hv
        obtain ⟨h, hpr⟩ := compute_txn_hash_ok_of_some p (asciiBytes "declare")
          TransactionVersion.TWO t.sender_address none (hashFelts p [t.class_hash])
          (some t.max_fee) cid (NonceOrClassHash.Nonce t.nonce)
          (some t.compiled_class_hash) (beValue (asciiBytes "declare")) vf
          (by decide) hv
        refine ⟨ComputedTransactionHash.DeclareV2 h, ?_⟩
        simp [compute_transaction_hash, compute_declare_v2_hash, hpr, Except.map]
    | Deploy t =>
      simp only [txn_version_bytes] at hv
      obtain ⟨h, hpr⟩ := compute_txn_hash_ok_of_some p (asciiBytes "deploy")
        t.version t.contract_address (some CONSTRUCTOR)
        (hashFelts p t.constructor_calldata) none cid NonceOrClassHash.None none
        (beValue (asciiBytes "deploy")) vf (by decide) hv
      by_cases heq : h = t.transaction_hash
      · refine ⟨ComputedTransactionHash.Deploy h, ?_⟩
        simp only [compute_transaction_hash, compute_deploy_hash]
        rw [hpr]
        simp only [if_pos heq]
      · obtain ⟨hleg, L⟩ := legacy_ok_of_prefix p (asciiBytes "deploy")
          t.contract_address (some CONSTRUCTOR) (hashFelts p t.constructor_calldata)
          cid (beValue (asciiBytes "deploy")) (by decide)
        refine ⟨ComputedTransactionHash.Deploy hleg, ?_⟩
        simp only [compute_transaction_hash, compute_deploy_hash]
        rw [hpr]
        simp only [if_neg heq]
        rw [L]
    | DeployAccount t =>
      simp only [txn_version_bytes] at hv
      obtain ⟨h, hpr⟩ := compute_txn_hash_ok_of_some p (asciiBytes "deploy_account")
        t.version t.contract_address none
        (hashFelts p (t.class_hash :: t.contract_address_salt ::
          t.constructor_calldata))
        (some t.max_fee) cid (NonceOrClassHash.Nonce t.nonce) none
        (beValue (asciiBytes "deploy_account")) vf (by decide) hv
      refine ⟨ComputedTransactionHash.DeployAccount h, ?_⟩
      simp [compute_transaction_hash, compute_deploy_account_hash, hpr, Except.map]
    | Invoke iv =>
      cases iv with
      | V0 t =>
        by_cases hf : t.entry_point_type = some EntryPointType.L1Handler
        · exact ⟨ComputedTransactionHash.InvokeV0 none, compute_flagged_eq p t cid hf⟩
        · simp only [txn_version_bytes] at hv
          obtain ⟨h, hpr⟩ := compute_txn_hash_ok_of_some p (asciiBytes "invoke")
            TransactionVersion.ZERO t.sender_address (some t.entry_point_selector)
            (hashFelts p t.calldata) (some t.max_fee) cid NonceOrClassHash.None none
            (beValue (asciiBytes "invoke")) vf (by decide) hv
          by_cases heq : h = t.transaction_hash
          · refine ⟨ComputedTransactionHash.InvokeV0 (some h), ?_⟩
            simp only [compute_transaction_hash, compute_invoke_v0_hash]
            rw [if_neg hf]
            rw [hpr]
            simp only [if_pos heq]
          · obtain ⟨hleg, L⟩ := legacy_ok_of_prefix p (asciiBytes "invoke")
              t.sender_address (some t.entry_point_selector) (hashFelts p t.calldata)
              cid (beValue (asciiBytes "invoke")) (by decide)
            refine ⟨ComputedTransactionHash.InvokeV0 (some hleg), ?_⟩
            simp only [compute_transaction_hash, compute_invoke_v0_hash]
            rw [if_neg hf]
            rw [hpr]
            simp only [if_neg heq]
            rw [L]
      | V1 t =>
        simp only [txn_version_bytes] at hv
        obtain ⟨h, hpr⟩ := compute_txn_hash_ok_of_some p (asciiBytes "invoke")
          TransactionVersion.ONE t.sender_address none (hashFelts p t.calldata)
          (some t.max_fee) cid (NonceOrClassHash.Nonce t.nonce) none
          (beValue (asciiBytes "invoke")) vf (by decide) hv
        refine ⟨ComputedTransactionHash.InvokeV1 h, ?_⟩
        simp [compute_transaction_hash, compute_invoke_v1_hash, hpr, Except.map]
    | L1Handler t =>
      simp only [txn_version_bytes] at hv
      obtain ⟨h, hpr⟩ := compute_txn_hash_ok_of_some p (asciiBytes "l1_handler")
        t.version t.contract_address (some t.entry_point_selector)
        (hashFelts p t.calldata) none cid (NonceOrClassHash.Nonce t.nonce) none
        (beValue (asciiBytes "l1_handler")) vf (by decide) hv
      by_cases heq : h = t.transaction_hash
      · refine ⟨ComputedTransactionHash.L1Handler h, ?_⟩
        simp only [compute_transaction_hash, compute_l1_handler_hash]
        rw [hpr]
        simp only [if_pos heq]
      · obtain ⟨hleg, L⟩ := legacy_ok_of_prefix p (asciiBytes "invoke")
          t.contract_address (some t.entry_point_selector) (hashFelts p t.calldata)
          cid (beValue (asciiBytes "invoke")) (by decide)
        refine ⟨ComputedTransactionHash.L1Handler hleg, ?_⟩
        simp only [compute_transaction_hash, compute_l1_handler_hash]
        rw [hpr]
        simp only [if_neg heq]
        rw [L]
  · intro hv
    cases txn with
    | Declare d =>
      cases d with
      | V0 t =>
        simp only [txn_version_bytes] at hv
        exact absurd hv (by decide)
      | V1 t =>
        simp only [txn_version_bytes] at hv
        exact absurd hv (by decide)
      | V2 t =>
        simp only [txn_version_bytes] at hv
        exact absurd hv (by decide)
    | Deploy t =>
      simp only [txn_version_bytes] at hv
      simp only [compute_transaction_hash, compute_deploy_hash]
      rw [compute_txn_hash_version_none p (asciiBytes "deploy") t.version
        t.contract_address (some CONSTRUCTOR) (hashFelts p t.constructor_calldata)
        none cid NonceOrClassHash.None none (beValue (asciiBytes "deploy"))
        (by decide) hv]
    | DeployAccount t =>
      simp only [txn_version_bytes] at hv
      simp only [compute_transaction_hash, compute_deploy_account_hash]
      rw [compute_txn_hash_version_none p (asciiBytes "deploy_account") t.version
        t.contract_address none
        (hashFelts p (t.class_hash :: t.contract_address_salt ::
          t.constructor_calldata))
        (some t.max_fee) cid (NonceOrClassHash.Nonce t.nonce) none
        (beValue (asciiBytes "deploy_account")) (by decide) hv]
      simp [Except.map]
    | Invoke iv =>
      cases iv with
      | V0 t =>
        simp only [txn_version_bytes] at hv
        exact absurd hv (by decide)
      | V1 t =>
        simp only [txn_version_bytes] at hv
        exact absurd hv (by decide)
    | L1Handler t =>
      simp only [txn_version_bytes] at hv
      simp only [compute_transaction_hash, compute_l1_handler_hash]
      rw [compute_txn_hash_version_none p (asciiBytes "l1_handler") t.version
        t.contract_address (some t.entry_point_selector) (hashFelts p t.calldata)
        none cid (NonceOrClassHash.Nonce t.nonce) none
        (beValue (asciiBytes "l1_handler")) (by decide) hv]

/-- C8 counterexample: a Deploy transaction whose 32-byte version word
overflows the field makes compute_transaction_hash return a conversion error
even though every fixed ASCII byte prefix embeds as a field element, so an
unembeddable prefix is not the only conversion-error cause. -/
theorem compute_transaction_hash_conversion_cex :
    (fromBeSlice (asciiBytes "declare")).isSome = true ∧
    (fromBeSlice (asciiBytes "deploy")).isSome = true ∧
    (fromBeSlice (asciiBytes "deploy_account")).isSome = true ∧
    (fromBeSlice (asciiBytes "invoke")).isSome = true ∧
    (fromBeSlice (asciiBytes "l1_handler")).isSome = true ∧
    compute_transaction_hash pedersen0 (Transaction.Deploy bad_version_deploy)
      ChainId.MAINNET = .error "Converting version into felt" := by
  refine ⟨by decide, by decide, by decide, by decide, by decide, ?_⟩
  decide

/-- C8 witness for the amended statement: the fixed prefixes embed, a Deploy
with an embeddable version succeeds, and the overflowing version yields the
version-conversion error. -/
theorem compute_transaction_hash_conversion_witness :
    (∃ ch, compute_transaction_hash pedersen0 (Transaction.Deploy deploy_fb)
      ChainId.MAINNET = .ok ch) ∧
    compute_transaction_hash pedersen0 (Transaction.Deploy bad_version_deploy)
      ChainId.MAINNET = .error "Converting version into felt" :=
  ⟨(compute_transaction_hash_conversion pedersen0 (Transaction.Deploy deploy_fb)
      ChainId.MAINNET).1 (by decide),
   (compute_transaction_hash_conversion pedersen0
      (Transaction.Deploy bad_version_deploy) ChainId.MAINNET).2.1 (by decide)⟩

/-- C5: the StateDiffCommitmentStage fails with the commitment-mismatch error
exactly when the recomputed commitment differs from the declared one, and on
success passes the diff through unchanged. -/
theorem verify_commitment_spec (csdc : StateUpdateData → StarknetVersion → Felt)
    (expected : Felt) (diff : StateUpdateData) (ver : StarknetVersion) :
    (csdc diff ver = expected →
      VerifyCommitment.map csdc (⟨expected, diff⟩, ver) = .ok diff) ∧
    (csdc diff ver ≠ expected →
      VerifyCommitment.map csdc (⟨expected, diff⟩, ver)
        = .error SyncError2.StateDiffCommitmentMismatch) := by
  constructor <;> intro h <;> simp [VerifyCommitment.map, h]

/-- C5 witness: a matching commitment passes the concrete diff through, a
one-off commitment fails with the mismatch error. -/
theorem verify_commitment_spec_witness :
    VerifyCommitment.map csdc0 (⟨7, diff0⟩, 0) = .ok diff0 ∧
    VerifyCommitment.map csdc0 (⟨8, diff0⟩, 0)
      = .error SyncError2.StateDiffCommitmentMismatch :=
  ⟨(verify_commitment_spec csdc0 7 diff0 0).1 (by decide),
   (verify_commitment_spec csdc0 8 diff0 0).2 (by decide)⟩

/-- C3: every failing run of the update stage returns the stage state
unchanged (no commit, cursor untouched); a recomputed commitment that differs
from the header's fails with the state-root-mismatch error, a missing header
and a missing parent commitment fail with their lookup errors, all leaving the
state unchanged. -/
theorem update_starknet_state_atomic (usf : UpdateStateFn)
    (calculate : CalculateFn) (self : UpdateStarknetState)
    (su : StateUpdateData) (e0 : SyncError2) (self2 : UpdateStarknetState)
    (header : BlockHeader) (parent sc cc : Felt) (tx1 : Db) :
    (UpdateStarknetState.map usf calculate self su = (.error e0, self2) →
      self2 = self) ∧
    (self.db.block_header self.current_block = some header →
      parent_state_commitment_of self.db self.current_block = .ok parent →
      usf self.db (assemble_state_update header parent su)
        self.verify_tree_hashes header.number = some ((sc, cc), tx1) →
      calculate sc cc ≠ header.state_commitment →
      UpdateStarknetState.map usf calculate self su
        = (.error SyncError2.StateRootMismatch, self)) ∧
    (self.db.block_header self.current_block = none →
      UpdateStarknetState.map usf calculate self su
        = (.error (SyncError2.Other "Block header not found"), self)) ∧
    (self.db.block_header self.current_block = some header →
      parent_state_commitment_of self.db self.current_block = .error e0 →
      UpdateStarknetState.map usf calculate self su = (.error e0, self)) := by
  refine ⟨?_, ?_, ?_, ?_⟩
  · intro hmap
    simp only [UpdateStarknetState.map] at hmap
    split at hmap
    · exact (congrArg Prod.snd hmap).symm
    · split at hmap
      · exact (congrArg Prod.snd hmap).symm
      · split at hmap
        · exact (congrArg Prod.snd hmap).symm
        · split at hmap
          · exact (congrArg Prod.snd hmap).symm
          · exact absurd (congrArg Prod.fst hmap) (by simp)
  · intro h1 h2 h3 h4
    simp only [UpdateStarknetState.map]
    rw [h1]
    simp only [h2]
    rw [h3]
    simp only [if_pos h4]
  · intro h1
    simp only [UpdateStarknetState.map]
    rw [h1]
  · intro h1 h2
    simp only [UpdateStarknetState.map]
    rw [h1]
    simp only [h2]

/-- C3 witness: a concrete genesis run whose recomputed commitment (2) differs
from the header's declared commitment (99) fails with the state-root-mismatch
error and leaves the stage, its store and its cursor unchanged. -/
theorem update_starknet_state_atomic_witness :
    UpdateStarknetState.map usf0 calc0 stage_mismatch diff0
      = (.error SyncError2.StateRootMismatch, stage_mismatch) :=
  (update_starknet_state_atomic usf0 calc0 stage_mismatch diff0
    SyncError2.StateRootMismatch stage_mismatch header_mismatch 0 1 1
    db_mismatch).2.1 (by decide) (by decide) (by decide) (by decide)

/-- C7: a successful run of the update stage returns the entry value of the
cursor, advances the cursor by exactly one, and its new store is the committed
transaction holding the persisted commitments and state-update record; every
failing run leaves the cursor where it was, so the increment happens only
after the commit. -/
theorem update_starknet_state_success (usf : UpdateStateFn)
    (calculate : CalculateFn) (self : UpdateStarknetState)
    (su : StateUpdateData) (n : Nat) (self2 self3 : UpdateStarknetState)
    (e0 : SyncError2) :
    (UpdateStarknetState.map usf calculate self su = (.ok n, self2) →
      n = self.current_block ∧
      self2.current_block = self.current_block + 1 ∧
      self2.verify_tree_hashes = self.verify_tree_hashes ∧
      ∃ header parent sc cc tx1,
        self.db.block_header self.current_block = some header ∧
        parent_state_commitment_of self.db self.current_block = .ok parent ∧
        usf self.db (assemble_state_update header parent su)
          self.verify_tree_hashes header.number = some ((sc, cc), tx1) ∧
        calculate sc cc = header.state_commitment ∧
        self2.db = (tx1.update_storage_and_class_commitments n sc
          cc).insert_state_update n (assemble_state_update header parent su)) ∧
    (UpdateStarknetState.map usf calculate self su = (.error e0, self3) →
      self3.current_block = self.current_block) := by
  constructor
  · intro hmap
    simp only [UpdateStarknetState.map] at hmap
    cases hbh : self.db.block_header self.current_block with
    | none =>
      simp only [hbh] at hmap
      exact absurd (congrArg Prod.fst hmap) (by simp)
    | some header =>
      simp only [hbh] at hmap
      cases hpc : parent_state_commitment_of self.db self.current_block with
      | error e =>
        simp only [hpc] at hmap
        exact absurd (congrArg Prod.fst hmap) (by simp)
      | ok parent =>
        simp only [hpc] at hmap
        cases husf : usf self.db (assemble_state_update header parent su)
            self.verify_tree_hashes header.number with
        | none =>
          simp only [husf] at hmap
          exact absurd (congrArg Prod.fst hmap) (by simp)
        | some r =>
          obtain ⟨⟨sc, cc⟩, tx1⟩ := r
          simp only [husf] at hmap
          by_cases hne : calculate sc cc ≠ header.state_commitment
          · rw [if_pos hne] at hmap
            exact absurd (congrArg Prod.fst hmap) (by simp)
          · rw [if_neg hne] at hmap
            push_neg at hne
            have hfst := congrArg Prod.fst hmap
            have hsnd := congrArg Prod.snd hmap
            simp only at hfst hsnd
            have hn : self.current_block = n := by
              exact Except.ok.inj hfst
            refine ⟨hn.symm, ?_, ?_, header, parent, sc, cc, tx1, rfl, rfl, husf,
              hne, ?_⟩
            · rw [← hsnd]
            · rw [← hsnd]
            · rw [← hsnd, ← hn]
  · intro hmap
    simp only [UpdateStarknetState.map] at hmap
    split at hmap
    · exact congrArg (fun s => (Prod.snd s).current_block) hmap |>.symm
    · split at hmap
      · exact congrArg (fun s => (Prod.snd s).current_block) hmap |>.symm
      · split at hmap
        · exact congrArg (fun s => (Prod.snd s).current_block) hmap |>.symm
        · split at hmap
          · exact congrArg (fun s => (Prod.snd s).current_block) hmap |>.symm
          · exact absurd (congrArg Prod.fst hmap) (by simp)

/-- C7 witness: a concrete successful genesis run returns block 0 (the entry
cursor), advances the cursor to 1, and commits the persisted commitments and
state-update record. -/
theorem update_starknet_state_success_witness :
    (0 : Nat) = stage_ok.current_block ∧
    stage_ok_next.current_block = stage_ok.current_block + 1 ∧
    stage_ok_next.verify_tree_hashes = stage_ok.verify_tree_hashes ∧
    ∃ header parent sc cc tx1,
      stage_ok.db.block_header stage_ok.current_block = some header ∧
      parent_state_commitment_of stage_ok.db stage_ok.current_block = .ok parent ∧
      usf0 stage_ok.db (assemble_state_update header parent diff0)
        stage_ok.verify_tree_hashes header.number = some ((sc, cc), tx1) ∧
      calc0 sc cc = header.state_commitment ∧
      stage_ok_next.db = (tx1.update_storage_and_class_commitments 0 sc
        cc).insert_state_update 0 (assemble_state_update header parent diff0) :=
  (update_starknet_state_success usf0 calc0 stage_ok diff0 0 stage_ok_next
    stage_ok SyncError2.StateRootMismatch).1 (by decide)

theorem range_map_append {α : Type} (f : Nat → α) (a b : Nat) :
    (List.range (a + b)).map f
      = (List.range a).map f ++ (List.range b).map (fun i => f (a + i)) := by
  rw [List.range_add, List.map_append, List.map_map]
  rfl

theorem complete_stream_run (vals : Nat → Nat × Felt) (n : Nat) :
    ∀ start stop, stop + 1 - start = n → start ≤ stop →
      length_and_commitment_stream (complete_fetch vals) start stop
        = ((List.range (stop + 1 - start)).map (fun i => vals (start + i)),
           none) := by
  induction n using Nat.strong_induction_on with
  | _ n ih =>
    intro start stop hn hle
    unfold length_and_commitment_stream
    rw [dif_pos hle]
    have hne : ¬ complete_fetch vals start (min 1000 (stop - start + 1)) = [] := by
      intro hx
      have hx2 := congrArg List.length hx
      simp [complete_fetch] at hx2
    rw [dif_neg hne]
    have hlen : (complete_fetch vals start (min 1000 (stop - start + 1))).length
        = min 1000 (stop - start + 1) := by
      simp [complete_fetch]
    rw [hlen]
    by_cases hstop : start + min 1000 (stop - start + 1) ≤ stop
    · have hrec := ih (stop + 1 - (start + min 1000 (stop - start + 1)))
        (by omega) (start + min 1000 (stop - start + 1)) stop rfl hstop
      rw [hrec]
      have key : stop + 1 - start
          = min 1000 (stop - start + 1)
            + (stop + 1 - (start + min 1000 (stop - start + 1))) := by
        omega
      rw [key, range_map_append]
      simp [complete_fetch, Nat.add_assoc]
    · have hrec : length_and_commitment_stream (complete_fetch vals)
          (start + min 1000 (stop - start + 1)) stop = ([], none) := by
        unfold length_and_commitment_stream
        rw [dif_neg (by omega)]
      rw [hrec]
      have key : min 1000 (stop - start + 1) = stop + 1 - start := by omega
      simp [complete_fetch, key]

theorem gap_stream_run (vals : Nat → Nat × Felt) (n : Nat) :
    ∀ start stop gap, gap - start = n → start ≤ gap → gap ≤ stop →
      length_and_commitment_stream (gap_fetch vals gap) start stop
        = ((List.range (gap - start)).map (fun i => vals (start + i)),
           some (gap, min 1000 (stop - gap + 1))) := by
  induction n using Nat.strong_induction_on with
  | _ n ih =>
    intro start stop gap hn h1 h2
    unfold length_and_commitment_stream
    rw [dif_pos (by omega : start ≤ stop)]
    by_cases hsg : start = gap
    · have hb : gap_fetch vals gap start (min 1000 (stop - start + 1)) = [] := by
        simp [gap_fetch, hsg]
      rw [dif_pos hb]
      simp [hsg]
    · have hne : ¬ gap_fetch vals gap start (min 1000 (stop - start + 1)) = [] := by
        intro hx
        have hx2 := congrArg List.length hx
        simp [gap_fetch] at hx2
        omega
      rw [dif_neg hne]
      have hlen : (gap_fetch vals gap start (min 1000 (stop - start + 1))).length
          = min (min 1000 (stop - start + 1)) (gap - start) := by
        simp [gap_fetch]
      rw [hlen]
      have hrec := ih (gap - (start + min (min 1000 (stop - start + 1)) (gap - start)))
        (by omega) (start + min (min 1000 (stop - start + 1)) (gap - start)) stop gap
        rfl (by omega) h2
      rw [hrec]
      have final : ∀ k, k + (gap - (start + k)) = gap - start →
          (List.range k).map (fun i => vals (start + i))
            ++ (List.range (gap - (start + k))).map (fun i => vals (start + k + i))
          = (List.range (gap - start)).map (fun i => vals (start + i)) := by
        intro k hkey
        rw [← hkey, range_map_append]
        simp [Nat.add_assoc]
      simp only [gap_fetch]
      rw [final (min (min 1000 (stop - start + 1)) (gap - start)) (by omega)]

/-- C9: over a store holding one row per block of [start, stop], the stream
yields exactly stop - start + 1 items, one per block in increasing block
order, each equal to the store's row; over a store whose rows stop at block
gap, it yields exactly the rows before the gap and then fails with the
data-gap error carrying the empty fetch's start and batch size, yielding
nothing past the gap. -/
theorem length_and_commitment_stream_spec (vals : Nat → Nat × Felt)
    (start stop gap : Nat) (h1 : start ≤ stop) (h2 : start ≤ gap)
    (h3 : gap ≤ stop) :
    length_and_commitment_stream (complete_fetch vals) start stop
      = ((List.range (stop - start + 1)).map (fun i => vals (start + i)),
         none) ∧
    length_and_commitment_stream (gap_fetch vals gap) start stop
      = ((List.range (gap - start)).map (fun i => vals (start + i)),
         some (gap, min 1000 (stop - gap + 1))) := by
  constructor
  · have hrun := complete_stream_run vals (stop + 1 - start) start stop rfl h1
    have e : stop + 1 - start = stop - start + 1 := by omega
    rw [e] at hrun
    exact hrun
  · exact gap_stream_run vals (gap - start) start stop gap rfl h2 h3

/-- C9 witness: over the concrete range [100, 103] the stream yields the four
store rows in order; with a gap at block 102 it yields the first two rows and
the data-gap error. -/
theorem length_and_commitment_stream_spec_witness :
    length_and_commitment_stream (complete_fetch vals0) 100 103
      = ((List.range (103 - 100 + 1)).map (fun i => vals0 (100 + i)), none) ∧
    length_and_commitment_stream (gap_fetch vals0 102) 100 103
      = ((List.range (102 - 100)).map (fun i => vals0 (100 + i)),
         some (102, min 1000 (103 - 102 + 1))) :=
  length_and_commitment_stream_spec vals0 100 103 102 (by decide) (by decide)
    (by decide)
